import Mathlib

/-!
Shallow embedding of the interval-timer state machine of
`src/src/main.rs` (exercise-timer).

Modelling conventions:
* `usize` fields are `Nat`.  Rust's `-=` on `usize` panics on underflow in
  debug builds; we model every panic (the `assert!` on line 214 and the
  unchecked subtractions on lines 215 and 223) as `none`, so state-mutating
  operations return `Option AppModel` (`checkedSub` below).
* The `WorkerController<TimerModel>` tick handle is modelled by its
  presence: `timer : Bool` (`true` = `Some(handle)`, `false` = `None`).
* In the set-completion branch (line 225) the Rust code sends `StartStop`
  to its own serialized input queue; that message is processed next, while
  `running` is still `true`, so its effect (drop the handle, flip
  `running` to `false`) is applied inline here.
* The Rust code mutates `remaining_s` in place before matching on the
  phase; the embedding applies the net field updates of each branch.
-/

/-- The `Exercise` struct (main.rs lines 12-17): the exercise definition. -/
structure Exercise where
  warmup_s : Nat
  exercise_s : Nat
  rest_s : Nat
  sets : Nat
deriving Repr, DecidableEq

/-- `impl Default for Exercise` (main.rs lines 26-35). -/
def Exercise.default : Exercise :=
  { warmup_s := 2, exercise_s := 2, rest_s := 2, sets := 2 }

/-- The `ExerciseState` enum (main.rs lines 19-24): the current phase. -/
inductive ExerciseState where
  | Warmup
  | Exercise
  | Rest
deriving Repr, DecidableEq

/-- The `AppModel` struct (main.rs lines 37-44); the
`Option<WorkerController<TimerModel>>` handle is modelled by its presence. -/
structure AppModel where
  exercise : Exercise
  state : ExerciseState
  remaining_sets : Nat
  remaining_s : Nat
  running : Bool
  timer : Bool
deriving Repr, DecidableEq

/-- The `AppInput` enum (main.rs lines 67-72). -/
inductive AppInput where
  | Tick
  | StartStop
  | Reset
deriving Repr, DecidableEq

/-- `AppModel::new` (main.rs lines 47-56).  Note: no validation of the
definition is performed. -/
def AppModel.new (exercise : Exercise) : AppModel :=
  { exercise := exercise
    state := .Warmup
    remaining_sets := exercise.sets
    remaining_s := exercise.warmup_s
    running := true
    timer := true }

/-- `AppModel::reset` (main.rs lines 58-64). -/
def AppModel.reset (m : AppModel) : AppModel :=
  { m with
    state := .Warmup
    remaining_sets := m.exercise.sets
    remaining_s := m.exercise.warmup_s
    running := true
    timer := true }

/-- Rust `usize` subtraction under debug semantics: `none` models the
"attempt to subtract with overflow" panic. -/
def checkedSub (a b : Nat) : Option Nat :=
  if b ≤ a then some (a - b) else none

/-- `AppModel::update` (main.rs lines 198-242).  `none` models a panic:
either the `assert!(self.running)` on line 214 or a `usize` underflow on
line 215 (`self.remaining_s -= 1`) or line 223 (`self.remaining_sets -= 1`).
In the completion branch the self-sent `StartStop` (line 225) is applied
inline, as explained in the header comment. -/
def AppModel.update (m : AppModel) : AppInput → Option AppModel
  | .StartStop =>
      some { m with
             timer := if m.running then false else true
             running := !m.running }
  | .Tick =>
      if m.running then
        match checkedSub m.remaining_s 1 with
        | none => none
        | some rs =>
          if rs = 0 then
            match m.state with
            | .Warmup =>
                some { m with state := .Exercise, remaining_s := m.exercise.exercise_s }
            | .Exercise =>
                match checkedSub m.remaining_sets 1 with
                | none => none
                | some k =>
                  if k = 0 then
                    some { m with remaining_sets := k, remaining_s := rs,
                                  running := false, timer := false }
                  else
                    some { m with remaining_sets := k, state := .Rest,
                                  remaining_s := m.exercise.rest_s }
            | .Rest =>
                some { m with state := .Exercise, remaining_s := m.exercise.exercise_s }
          else
            some { m with remaining_s := rs }
      else
        none
  | .Reset =>
      some m.reset

/-- Iterated delivery of `Tick` events; `none` if any tick panics. -/
def ticksAux : Nat → AppModel → Option AppModel
  | 0, m => some m
  | n + 1, m =>
    match m.update .Tick with
    | none => none
    | some m2 => ticksAux n m2

/-- C5: For every timer state, whatever the prior phase, countdown, set
count, and running flag, Reset yields
`(Warmup, running = true, remaining_s = warmup_s, remaining_sets = sets)`
with an active tick handle, keeping the same definition. -/
theorem reset_restores_initial (m : AppModel) :
    m.update .Reset =
      some { exercise := m.exercise
             state := .Warmup
             remaining_sets := m.exercise.sets
             remaining_s := m.exercise.warmup_s
             running := true
             timer := true } :=
  rfl

/-- C7: For every running state, StartStop (the Stop direction) changes only
the running flag and the tick handle: phase, remaining_s and remaining_sets
are untouched. -/
theorem stop_preserves_countdown (m : AppModel) (h : m.running = true) :
    m.update .StartStop = some { m with running := false, timer := false } := by
  simp [AppModel.update, h]

/-- Witness for C7 at a concrete mid-exercise running state. -/
theorem stop_preserves_countdown_witness :
    AppModel.update ⟨⟨2, 2, 2, 2⟩, .Exercise, 2, 1, true, true⟩ .StartStop =
      some ⟨⟨2, 2, 2, 2⟩, .Exercise, 2, 1, false, false⟩ :=
  stop_preserves_countdown ⟨⟨2, 2, 2, 2⟩, .Exercise, 2, 1, true, true⟩ rfl

/-- C10: StartStop unconditionally flips the running flag and makes the
tick-handle presence equal to the new flag, touching no other field and
checking neither `remaining_sets` nor `remaining_s`; in particular, applied
in the terminal state (`running = false`) it sets `running = true` again. -/
theorem startStop_toggles (m : AppModel) :
    m.update .StartStop =
      some { m with running := !m.running, timer := !m.running } := by
  cases m with
  | mk ex st sets s r t => cases r <;> rfl

/-- C4 counterexample: from the freshly constructed default model, issuing
StartStop twice does not equal issuing it once (the flag flips each time),
so the operation is not idempotent. -/
theorem startStop_not_idempotent :
    ((AppModel.new Exercise.default).update .StartStop).bind
        (fun m => m.update .StartStop) ≠
      (AppModel.new Exercise.default).update .StartStop := by
  decide

/-- C4 (amended): the code has a single StartStop toggle instead of separate
idempotent Start and Stop commands; applying it twice restores the snapshot
(phase, remaining_s, remaining_sets, running), with the tick-handle presence
normalized to the running flag — an involution, not idempotence. -/
theorem startStop_involutive (m : AppModel) :
    (m.update .StartStop).bind (fun x => x.update .StartStop) =
      some { m with timer := m.running } := by
  cases m with
  | mk ex st sets s r t => cases r <;> rfl

/-- C9 counterexample: construction from the invalid definition
`{warmup_s := 5, exercise_s := 0, rest_s := 5, sets := 0}` is not rejected:
`AppModel::new` produces a full timer instance for it. -/
theorem new_accepts_invalid :
    AppModel.new ⟨5, 0, 5, 0⟩ = ⟨⟨5, 0, 5, 0⟩, .Warmup, 0, 5, true, true⟩ :=
  rfl

/-- C9 (amended): `AppModel::new` performs no validation at all — it is a
total function producing a running instance for every definition, including
those with `exercise_s = 0` or `sets = 0`. -/
theorem new_total (ex : Exercise) :
    AppModel.new ex = ⟨ex, .Warmup, ex.sets, ex.warmup_s, true, true⟩ :=
  rfl

/-- C3 counterexample: delivering a Tick in the stopped terminal state is
not a snapshot-preserving no-op: the `assert!(self.running)` fails (the
update panics, modelled as `none`). -/
theorem tick_when_stopped_not_noop :
    AppModel.update ⟨⟨2, 2, 2, 2⟩, .Exercise, 0, 0, false, false⟩ .Tick ≠
      some ⟨⟨2, 2, 2, 2⟩, .Exercise, 0, 0, false, false⟩ := by
  decide

/-- C3 (amended): a Tick delivered while `running = false` is rejected by
the assertion `assert!(self.running)` — a panic, modelled as `none` — rather
than being silently ignored. -/
theorem tick_when_stopped_panics (m : AppModel) (h : m.running = false) :
    m.update .Tick = none := by
  simp [AppModel.update, h]

/-- Witness for C3 (amended) at a concrete paused mid-warmup state. -/
theorem tick_when_stopped_panics_witness :
    AppModel.update ⟨⟨2, 2, 2, 2⟩, .Warmup, 2, 2, false, false⟩ .Tick = none :=
  tick_when_stopped_panics ⟨⟨2, 2, 2, 2⟩, .Warmup, 2, 2, false, false⟩ rfl

/-- C1 counterexample: in the running state
`(Exercise, remaining_sets = 0, remaining_s = 1)` a Tick does not produce
the decremented successor the claim describes: `self.remaining_sets -= 1`
underflows the `usize` (a panic, modelled as `none`). -/
theorem tick_sets_underflow :
    AppModel.update ⟨⟨2, 2, 2, 2⟩, .Exercise, 0, 1, true, true⟩ .Tick = none := by
  decide

/-- C1 (amended): for every state with `running = true` and
`remaining_s ≥ 1`, except the state `(Exercise, remaining_s = 1,
remaining_sets = 0)` where the set counter underflows, one Tick decrements
`remaining_s` by exactly 1; if the result is positive nothing else changes,
and if it is 0 the phase-advance rule is applied exactly once (no cascading):
Warmup and Rest move to Exercise with `remaining_s = exercise_s`; Exercise
decrements `remaining_sets`, stopping the timer (handle dropped,
`running = false`, `remaining_s = 0`) when it reaches 0 and otherwise moving
to Rest with `remaining_s = rest_s`. -/
theorem tick_step (m : AppModel) (hrun : m.running = true)
    (h1 : 1 ≤ m.remaining_s)
    (hx : ¬(m.state = .Exercise ∧ m.remaining_s = 1 ∧ m.remaining_sets = 0)) :
    (2 ≤ m.remaining_s →
        m.update .Tick = some { m with remaining_s := m.remaining_s - 1 }) ∧
    (m.remaining_s = 1 →
      (m.state = .Warmup →
          m.update .Tick =
            some { m with state := .Exercise, remaining_s := m.exercise.exercise_s }) ∧
      (m.state = .Rest →
          m.update .Tick =
            some { m with state := .Exercise, remaining_s := m.exercise.exercise_s }) ∧
      (m.state = .Exercise →
        (m.remaining_sets = 1 →
            m.update .Tick =
              some { m with remaining_sets := 0, remaining_s := 0,
                            running := false, timer := false }) ∧
        (2 ≤ m.remaining_sets →
            m.update .Tick =
              some { m with remaining_sets := m.remaining_sets - 1,
                            state := .Rest, remaining_s := m.exercise.rest_s }))) := by
  constructor
  · intro h2
    have hne : ¬(m.remaining_s - 1 = 0) := by omega
    simp [AppModel.update, hrun, checkedSub, h1, hne]
  · intro hone
    refine ⟨?_, ?_, ?_⟩
    · intro hst
      simp [AppModel.update, hrun, checkedSub, hone, hst]
    · intro hst
      simp [AppModel.update, hrun, checkedSub, hone, hst]
    · intro hst
      have hk : 1 ≤ m.remaining_sets := by
        rcases Nat.eq_zero_or_pos m.remaining_sets with h0 | h0
        · exact absurd ⟨hst, hone, h0⟩ hx
        · exact h0
      constructor
      · intro hk1
        simp [AppModel.update, hrun, checkedSub, hone, hst, hk1]
      · intro hk2
        have hne : ¬(m.remaining_sets - 1 = 0) := by omega
        simp [AppModel.update, hrun, checkedSub, hone, hst, hk, hne]

/-- Witness for C1 (amended): the last set's Exercise phase completing from
`remaining_s = 1`, `remaining_sets = 1` stops the timer. -/
theorem tick_step_witness :
    AppModel.update ⟨⟨2, 3, 4, 5⟩, .Exercise, 1, 1, true, true⟩ .Tick =
      some ⟨⟨2, 3, 4, 5⟩, .Exercise, 0, 0, false, false⟩ :=
  (((tick_step ⟨⟨2, 3, 4, 5⟩, .Exercise, 1, 1, true, true⟩ rfl (by decide)
      (by decide)).2 rfl).2.2 rfl).1 rfl

/-- C8 counterexample: with `rest_s = 0`, finishing an Exercise phase with
sets remaining enters Rest with `remaining_s = 0` while running (first
conjunct), but the very next Tick does not complete that phase: the
unconditional `self.remaining_s -= 1` underflows the `usize` (a panic,
modelled as `none`), so no advance to Exercise happens (second conjunct). -/
theorem zero_rest_underflow :
    AppModel.update ⟨⟨2, 2, 0, 2⟩, .Exercise, 2, 1, true, true⟩ .Tick =
        some ⟨⟨2, 2, 0, 2⟩, .Rest, 1, 0, true, true⟩ ∧
      AppModel.update ⟨⟨2, 2, 0, 2⟩, .Rest, 1, 0, true, true⟩ .Tick = none := by
  decide

/-- C8 (amended): a phase entered with configured duration 0 does show
`remaining_s = 0` with `running = true` for one tick period, but the next
Tick's unconditional decrement underflows the `usize` counter — a panic in
debug builds (in release builds it wraps, the zero check fails, and the
phase still never advances).  The phase is not completed without error. -/
theorem tick_at_zero_underflows (m : AppModel) (hrun : m.running = true)
    (h0 : m.remaining_s = 0) :
    m.update .Tick = none := by
  simp [AppModel.update, hrun, checkedSub, h0]

/-- Witness for C8 (amended) at the zero-duration Rest state of the
counterexample. -/
theorem tick_at_zero_underflows_witness :
    AppModel.update ⟨⟨2, 2, 0, 2⟩, .Rest, 1, 0, true, true⟩ .Tick = none :=
  tick_at_zero_underflows ⟨⟨2, 2, 0, 2⟩, .Rest, 1, 0, true, true⟩ rfl rfl

/-- States reachable from construction via the event loop, with StartStop
issued only when `remaining_s ≠ 0` — the condition under which the UI
enables the Pause/Resume button (main.rs line 146,
`set_sensitive: model.remaining_s != 0`). -/
inductive Reachable (ex : Exercise) : AppModel → Prop where
  | init : Reachable ex (AppModel.new ex)
  | tick {m m' : AppModel} : Reachable ex m → m.update .Tick = some m' →
      Reachable ex m'
  | startStop {m m' : AppModel} : Reachable ex m → m.remaining_s ≠ 0 →
      m.update .StartStop = some m' → Reachable ex m'
  | reset {m m' : AppModel} : Reachable ex m → m.update .Reset = some m' →
      Reachable ex m'

/-- The inductive invariant for C6: the definition is preserved and a zero
set count only occurs stopped in the terminal countdown. -/
def TimerInv (ex : Exercise) (m : AppModel) : Prop :=
  m.exercise = ex ∧ (m.remaining_sets = 0 → m.running = false ∧ m.remaining_s = 0)

lemma update_tick_running {m m' : AppModel} (h : m.update .Tick = some m') :
    m.running = true := by
  by_cases hr : m.running = true
  · exact hr
  · have hf : m.running = false := by simpa using hr
    simp [AppModel.update, hf] at h

lemma tick_preserves_inv {ex : Exercise} {m m' : AppModel} (hI : TimerInv ex m)
    (h : m.update .Tick = some m') : TimerInv ex m' := by
  have hr : m.running = true := update_tick_running h
  obtain ⟨ex0, st, k, s, r, t⟩ := m
  obtain ⟨hex, himp⟩ := hI
  simp only at hex himp hr
  subst hr
  have hk : k ≠ 0 := by
    intro h0
    have := (himp h0).1
    simp at this
  by_cases h1 : 1 ≤ s
  · by_cases h2 : s - 1 = 0
    · cases st
      · simp [AppModel.update, checkedSub, h1, h2] at h
        subst h
        exact ⟨hex, fun h0 => absurd h0 hk⟩
      · have hk1 : 1 ≤ k := by omega
        by_cases h3 : k - 1 = 0
        · simp [AppModel.update, checkedSub, h1, h2, hk1, h3] at h
          subst h
          exact ⟨hex, fun _ => ⟨rfl, rfl⟩⟩
        · simp [AppModel.update, checkedSub, h1, h2, hk1, h3] at h
          subst h
          exact ⟨hex, fun h0 => absurd h0 h3⟩
      · simp [AppModel.update, checkedSub, h1, h2] at h
        subst h
        exact ⟨hex, fun h0 => absurd h0 hk⟩
    · simp [AppModel.update, checkedSub, h1, h2] at h
      subst h
      exact ⟨hex, fun h0 => absurd h0 hk⟩
  · simp [AppModel.update, checkedSub, h1] at h

lemma startStop_preserves_inv {ex : Exercise} {m m' : AppModel} (hI : TimerInv ex m)
    (hs : m.remaining_s ≠ 0) (h : m.update .StartStop = some m') : TimerInv ex m' := by
  obtain ⟨ex0, st, k, s, r, t⟩ := m
  obtain ⟨hex, himp⟩ := hI
  simp only at hex himp hs
  cases r
  · simp [AppModel.update] at h
    subst h
    exact ⟨hex, fun h0 => absurd (himp h0).2 hs⟩
  · simp [AppModel.update] at h
    subst h
    exact ⟨hex, fun h0 => absurd (himp h0).2 hs⟩

lemma reset_preserves_inv {ex : Exercise} (hsets : 1 ≤ ex.sets)
    {m m' : AppModel} (hI : TimerInv ex m) (h : m.update .Reset = some m') :
    TimerInv ex m' := by
  simp only [AppModel.update, AppModel.reset, Option.some.injEq] at h
  subst h
  refine ⟨hI.1, fun h0 => ?_⟩
  simp only at h0
  rw [hI.1] at h0
  omega

lemma reachable_inv {ex : Exercise} (hsets : 1 ≤ ex.sets) {m : AppModel}
    (h : Reachable ex m) : TimerInv ex m := by
  induction h with
  | init => exact ⟨rfl, fun h0 => by simp [AppModel.new] at h0; omega⟩
  | tick _ hstep ih => exact tick_preserves_inv ih hstep
  | startStop _ hs hstep ih => exact startStop_preserves_inv ih hs hstep
  | reset _ hstep ih => exact reset_preserves_inv hsets ih hstep

/-- C6 counterexample: with definition `{1,1,1,1}` the sequence
Tick, Tick, StartStop from construction — StartStop being the model's only
Start/Stop command, applied in the terminal state — reaches a state with
`remaining_sets = 0` and `running = true`, contradicting the claimed
invariant. -/
theorem terminal_startStop_running :
    ((((AppModel.new ⟨1, 1, 1, 1⟩).update .Tick).bind
          (fun m => m.update .Tick)).bind (fun m => m.update .StartStop)) =
        some ⟨⟨1, 1, 1, 1⟩, .Exercise, 0, 0, true, true⟩ ∧
      AppModel.remaining_sets ⟨⟨1, 1, 1, 1⟩, .Exercise, 0, 0, true, true⟩ = 0 ∧
      AppModel.running ⟨⟨1, 1, 1, 1⟩, .Exercise, 0, 0, true, true⟩ = true := by
  decide

/-- C6 (amended): for every definition with `sets ≥ 1`, in every state
reachable from construction by Tick, Reset, and StartStop issued only while
`remaining_s ≠ 0` (the UI's button guard), `remaining_sets = 0` implies the
protocol is complete: `running = false` and `remaining_s = 0`.  Without the
guard the invariant fails: StartStop in the terminal state re-enables
`running` (see the counterexample). -/
theorem reachable_sets_zero_stopped {ex : Exercise} (hsets : 1 ≤ ex.sets)
    {m : AppModel} (h : Reachable ex m) (h0 : m.remaining_sets = 0) :
    m.running = false ∧ m.remaining_s = 0 :=
  (reachable_inv hsets h).2 h0

/-- Witness for C6 (amended): the terminal state of the one-set run of
definition `{1,1,1,1}` is stopped with zero countdown. -/
theorem reachable_sets_zero_stopped_witness :
    AppModel.running ⟨⟨1, 1, 1, 1⟩, .Exercise, 0, 0, false, false⟩ = false ∧
      AppModel.remaining_s ⟨⟨1, 1, 1, 1⟩, .Exercise, 0, 0, false, false⟩ = 0 := by
  have h1 : Reachable ⟨1, 1, 1, 1⟩ (AppModel.new ⟨1, 1, 1, 1⟩) := Reachable.init
  have h2 : Reachable ⟨1, 1, 1, 1⟩ ⟨⟨1, 1, 1, 1⟩, .Exercise, 1, 1, true, true⟩ :=
    Reachable.tick h1 (by decide)
  have h3 : Reachable ⟨1, 1, 1, 1⟩ ⟨⟨1, 1, 1, 1⟩, .Exercise, 0, 0, false, false⟩ :=
    Reachable.tick h2 (by decide)
  exact reachable_sets_zero_stopped (by decide) h3 rfl

lemma ticksAux_one (m : AppModel) : ticksAux 1 m = m.update .Tick := by
  cases h : m.update .Tick <;> simp [ticksAux, h]

lemma ticksAux_add (a b : Nat) (m : AppModel) :
    ticksAux (a + b) m = (ticksAux a m).bind (fun y => ticksAux b y) := by
  induction a generalizing m with
  | zero => simp [ticksAux]
  | succ a ih =>
    have hh : a + 1 + b = (a + b) + 1 := by omega
    rw [hh]
    simp only [ticksAux]
    cases h : m.update .Tick with
    | none => simp
    | some m2 => simp [ih m2]

lemma ticksAux_countdown (j : Nat) : ∀ (ex : Exercise) (st : ExerciseState)
    (k s : Nat) (t : Bool), j < s →
    ticksAux j ⟨ex, st, k, s, true, t⟩ = some ⟨ex, st, k, s - j, true, t⟩ := by
  induction j with
  | zero =>
    intro ex st k s t hj
    simp [ticksAux]
  | succ j ih =>
    intro ex st k s t hj
    have h1 : 1 ≤ s := by omega
    have h2 : ¬(s - 1 = 0) := by omega
    have hstep : AppModel.update ⟨ex, st, k, s, true, t⟩ .Tick =
        some ⟨ex, st, k, s - 1, true, t⟩ := by
      simp [AppModel.update, checkedSub, h1, h2]
    simp only [ticksAux, hstep]
    rw [ih ex st k (s - 1) t (by omega)]
    have h3 : s - 1 - j = s - (j + 1) := by omega
    rw [h3]

lemma tick_one_warmup (ex : Exercise) (k : Nat) (t : Bool) :
    AppModel.update ⟨ex, .Warmup, k, 1, true, t⟩ .Tick =
      some ⟨ex, .Exercise, k, ex.exercise_s, true, t⟩ :=
  rfl

lemma tick_one_rest (ex : Exercise) (k : Nat) (t : Bool) :
    AppModel.update ⟨ex, .Rest, k, 1, true, t⟩ .Tick =
      some ⟨ex, .Exercise, k, ex.exercise_s, true, t⟩ :=
  rfl

lemma tick_one_exercise_last (ex : Exercise) (t : Bool) :
    AppModel.update ⟨ex, .Exercise, 1, 1, true, t⟩ .Tick =
      some ⟨ex, .Exercise, 0, 0, false, false⟩ :=
  rfl

lemma tick_one_exercise_more (ex : Exercise) (k : Nat) (t : Bool) :
    AppModel.update ⟨ex, .Exercise, k + 2, 1, true, t⟩ .Tick =
      some ⟨ex, .Rest, k + 1, ex.rest_s, true, t⟩ :=
  rfl

lemma ticksAux_phase (ex : Exercise) (st : ExerciseState) (k d : Nat) (t : Bool)
    (hd : 1 ≤ d) :
    ticksAux d ⟨ex, st, k, d, true, t⟩ =
      AppModel.update ⟨ex, st, k, 1, true, t⟩ .Tick := by
  obtain ⟨j, rfl⟩ : ∃ j, d = j + 1 := ⟨d - 1, by omega⟩
  rw [ticksAux_add j 1]
  rw [ticksAux_countdown j ex st k (j + 1) t (by omega)]
  have h1 : j + 1 - j = 1 := by omega
  rw [h1]
  simp [ticksAux_one]

lemma exercise_loop (ex : Exercise) (he : 1 ≤ ex.exercise_s) (hr : 1 ≤ ex.rest_s) :
    ∀ k, ticksAux ((k + 1) * ex.exercise_s + k * ex.rest_s)
        ⟨ex, .Exercise, k + 1, ex.exercise_s, true, true⟩ =
      some ⟨ex, .Exercise, 0, 0, false, false⟩ := by
  intro k
  induction k with
  | zero =>
    norm_num
    rw [ticksAux_phase ex .Exercise 1 ex.exercise_s true he,
      tick_one_exercise_last ex true]
  | succ k ih =>
    have hs2 : k + 1 + 1 = k + 2 := rfl
    rw [hs2]
    have harith : (k + 2) * ex.exercise_s + (k + 1) * ex.rest_s =
        ex.exercise_s + (ex.rest_s + ((k + 1) * ex.exercise_s + k * ex.rest_s)) := by
      ring
    rw [harith, ticksAux_add,
      ticksAux_phase ex .Exercise (k + 2) ex.exercise_s true he,
      tick_one_exercise_more ex k true]
    simp only [Option.some_bind]
    rw [ticksAux_add, ticksAux_phase ex .Rest (k + 1) ex.rest_s true hr,
      tick_one_rest ex (k + 1) true]
    simp only [Option.some_bind]
    exact ih

lemma ticksAux_prefix_running {m mf : AppModel} {N : Nat}
    (h : ticksAux N m = some mf) :
    ∀ j, j < N → ∃ y, ticksAux j m = some y ∧ y.running = true := by
  intro j hj
  have hsplit : (ticksAux j m).bind (fun y => ticksAux (N - j) y) = some mf := by
    rw [← ticksAux_add, (by omega : j + (N - j) = N)]
    exact h
  cases hy : ticksAux j m with
  | none =>
    rw [hy] at hsplit
    simp at hsplit
  | some y =>
    rw [hy] at hsplit
    simp only [Option.some_bind] at hsplit
    obtain ⟨d, hd⟩ : ∃ d, N - j = d + 1 := ⟨N - j - 1, by omega⟩
    rw [hd] at hsplit
    cases hu : y.update .Tick with
    | none => simp [ticksAux, hu] at hsplit
    | some z => exact ⟨y, rfl, update_tick_running hu⟩

/-- C2: for every definition with `warmup_s ≥ 1`, `exercise_s ≥ 1`,
`rest_s ≥ 1` and `sets ≥ 1`, starting from the freshly constructed running
state, exactly `warmup_s + sets * exercise_s + (sets - 1) * rest_s` Ticks
reach the terminal state (`running = false`, `remaining_sets = 0`,
`remaining_s = 0`), and every strictly shorter Tick sequence ends in a
still-running (hence non-terminal) state. -/
theorem total_ticks (ex : Exercise) (hw : 1 ≤ ex.warmup_s) (he : 1 ≤ ex.exercise_s)
    (hr : 1 ≤ ex.rest_s) (hn : 1 ≤ ex.sets) :
    ticksAux (ex.warmup_s + ex.sets * ex.exercise_s + (ex.sets - 1) * ex.rest_s)
        (AppModel.new ex) = some ⟨ex, .Exercise, 0, 0, false, false⟩ ∧
    ∀ j, j < ex.warmup_s + ex.sets * ex.exercise_s + (ex.sets - 1) * ex.rest_s →
      ∃ y, ticksAux j (AppModel.new ex) = some y ∧ y.running = true := by
  obtain ⟨k, hk⟩ : ∃ k, ex.sets = k + 1 := ⟨ex.sets - 1, by omega⟩
  have hmain : ticksAux
      (ex.warmup_s + ex.sets * ex.exercise_s + (ex.sets - 1) * ex.rest_s)
      (AppModel.new ex) = some ⟨ex, .Exercise, 0, 0, false, false⟩ := by
    have harith : ex.warmup_s + ex.sets * ex.exercise_s + (ex.sets - 1) * ex.rest_s =
        ex.warmup_s + ((k + 1) * ex.exercise_s + k * ex.rest_s) := by
      rw [hk]
      simp only [Nat.add_sub_cancel]
      ring
    rw [harith]
    have hnew : AppModel.new ex = ⟨ex, .Warmup, ex.sets, ex.warmup_s, true, true⟩ := rfl
    rw [hnew]
    rw [ticksAux_add, ticksAux_phase ex .Warmup ex.sets ex.warmup_s true hw,
      tick_one_warmup ex ex.sets true]
    simp only [Option.some_bind]
    rw [hk]
    exact exercise_loop ex he hr k
  exact ⟨hmain, fun j hj => ticksAux_prefix_running hmain j hj⟩

/-- Witness for C2 at the app's default definition `{2,2,2,2}`:
`2 + 2*2 + 1*2 = 8` Ticks reach the terminal state. -/
theorem total_ticks_witness :
    ticksAux 8 (AppModel.new ⟨2, 2, 2, 2⟩) =
      some ⟨⟨2, 2, 2, 2⟩, .Exercise, 0, 0, false, false⟩ :=
  (total_ticks ⟨2, 2, 2, 2⟩ (by norm_num) (by norm_num) (by norm_num)
    (by norm_num)).1
